import Mathlib

/-! CircularSlider (src/slider.js)

A shallow embedding of the geometry and interaction logic of the `CircularSlider`
class.  Numbers are elements of an ordered field `K` with a floor function (exact
arithmetic instead of IEEE doubles), and the part of the JavaScript `Math` object that
the class uses is passed in as a record, so every definition of the program is
computable (for instance over `ℚ`).  The theorems instantiate the field with `ℝ` and
the `Math` record with the real `π`, `cos`, `sin` and `atan2`.
-/

namespace CircularSlider

/-! JavaScript primitives -/

/-- The members of the JavaScript `Math` object used by `slider.js`. -/
structure JsMath (K : Type) where
  PI : K
  cos : K → K
  sin : K → K
  atan2 : K → K → K

/-- JavaScript `x % m` on numbers: the remainder of the division truncated towards
zero, so the result takes the sign of the dividend `x`. -/
def jsRem {K : Type} [LinearOrderedField K] [FloorRing K] (x m : K) : K :=
  x - m * (if 0 ≤ x / m then (⌊x / m⌋ : K) else (⌈x / m⌉ : K))

/-- JavaScript `Math.round(x)`: the nearest integer, a tie going up. -/
def jsRound {K : Type} [LinearOrderedField K] [FloorRing K] (x : K) : K :=
  (⌊x + 1 / 2⌋ : K)

/-- JavaScript `o || d` for an option `o` that is a number or `undefined` (`none`):
`undefined` and `0` are falsy and give the default.  Numbers are exact, so `NaN` and
the infinities do not occur. -/
def orDefault {K : Type} [DecidableEq K] [Zero K] (o : Option K) (d : K) : K :=
  match o with
  | some x => if x = 0 then d else x
  | none => d

/-! Data model -/

/-- A point `{x, y}`. -/
structure Point (K : Type) where
  x : K
  y : K
deriving DecidableEq

/-- One item of the array that `updateArc` joins with blanks into the `d` attribute:
a path command letter or a number. -/
inductive PathTok (K : Type) where
  | cmd : String → PathTok K
  | num : K → PathTok K
deriving DecidableEq

/-- What the constructor reads from the container element. -/
structure Container (K : Type) where
  width : K
  height : K
  offsetWidth : K
  offsetHeight : K

/-- The `options` object; an omitted option is `none`. -/
structure Options (K : Type) where
  container : Container K
  color : Option String
  min : Option K
  max : Option K
  step : Option K
  radius : K

/-- The exception a construction can end with. -/
inductive JsError where
  | typeError : JsError
deriving DecidableEq

/-- The fields of a `CircularSlider` instance, with the attributes of its SVG elements
that the methods write (`handle.cx`, `handle.cy`, `arc.d`, the readout text) and
whether the document-level drag listeners are attached. -/
structure Slider (K : Type) where
  color : String
  min : K
  max : K
  step : K
  radius : K
  value : K
  angle : K
  center : Point K
  strokeWidth : K
  handleSize : K
  handleCx : K
  handleCy : K
  arcD : List (PathTok K)
  readout : K
  listening : Bool

/-- A pointer event (mouse or first touch), already mapped into the SVG's coordinate
system by `pt.matrixTransform(this.svg.getScreenCTM().inverse())`. -/
structure PointerEvent (K : Type) where
  x : K
  y : K

/-! Methods -/

section Methods

variable {K : Type} [LinearOrderedField K] [FloorRing K]

/-- The method `polarToCartesian(cx, cy, r, angleInDegrees)`. -/
def polarToCartesian (M : JsMath K) (cx cy r angleInDegrees : K) : Point K :=
  let angleInRadians := (angleInDegrees - 90) * M.PI / 180
  { x := cx + r * M.cos angleInRadians
    y := cy + r * M.sin angleInRadians }

/-- The method `angleToValue(angle)`. -/
def angleToValue (M : JsMath K) (s : Slider K) (angle : K) : K :=
  let degrees := (angle * 180) / M.PI
  let normalized := jsRem (degrees + 360 + 90) 360
  let range := s.max - s.min
  let raw := (normalized / 360) * range + s.min
  jsRound (raw / s.step) * s.step

/-- The method `getAngleFromEvent(e)`. -/
def getAngleFromEvent (M : JsMath K) (s : Slider K) (e : PointerEvent K) : K :=
  let dx := e.x - s.center.x
  let dy := e.y - s.center.y
  M.atan2 dy dx

/-- The `d` attribute that `updateArc(value)` sets on the arc. -/
def arcPath (M : JsMath K) (s : Slider K) (value : K) : List (PathTok K) :=
  let range := s.max - s.min
  let progress := (value - s.min) / range
  let r := s.radius
  let cx := s.center.x
  let cy := s.center.y
  if 1 ≤ progress then
    [.cmd "M", .num (cx + r), .num cy,
     .cmd "A", .num r, .num r, .num 0, .num 1, .num 1, .num (cx - r), .num cy,
     .cmd "A", .num r, .num r, .num 0, .num 1, .num 1, .num (cx + r), .num cy]
  else if progress ≤ 0 then
    []
  else
    let startAngle : K := 0
    let endAngle := progress * 360
    let start := polarToCartesian M cx cy r endAngle
    let endPt := polarToCartesian M cx cy r startAngle
    let largeArc : K := if 180 < endAngle - startAngle then 1 else 0
    [.cmd "M", .num endPt.x, .num endPt.y,
     .cmd "A", .num r, .num r, .num 0, .num largeArc, .num 1, .num start.x, .num start.y]

/-- The method `updateArc(value)`. -/
def updateArc (M : JsMath K) (s : Slider K) (value : K) : Slider K :=
  { s with arcD := arcPath M s value }

/-- The local `adjustedAngle` of `updateHandlePosition(value)`: the angle at which the
handle is placed. -/
def adjustedAngle (M : JsMath K) (s : Slider K) (value : K) : K :=
  let angle := ((value - s.min) / (s.max - s.min)) * 2 * M.PI
  angle - (M.PI / 2)

/-- The method `updateHandlePosition(value)`. -/
def updateHandlePosition (M : JsMath K) (s : Slider K) (value : K) : Slider K :=
  let x := s.center.x + (s.radius * M.cos (adjustedAngle M s value))
  let y := s.center.y + (s.radius * M.sin (adjustedAngle M s value))
  let s1 := { s with handleCx := x, handleCy := y }
  let s2 := updateArc M s1 value
  { s2 with readout := value }

/-- The method `startDrag(e)`. -/
def startDrag (s : Slider K) : Slider K :=
  { s with listening := true }

/-- The method `stopDrag()`. -/
def stopDrag (s : Slider K) : Slider K :=
  { s with listening := false }

/-- The method `onDrag(e)`. -/
def onDrag (M : JsMath K) (s : Slider K) (e : PointerEvent K) : Slider K :=
  let s1 := { s with angle := getAngleFromEvent M s e }
  let s2 := { s1 with value := angleToValue M s1 s1.angle }
  updateHandlePosition M s2 s2.value

/-- The method `handleClick(e)`. -/
def handleClick (M : JsMath K) (s : Slider K) (e : PointerEvent K) : Slider K :=
  let s1 := { s with angle := getAngleFromEvent M s e }
  let s2 := { s1 with value := angleToValue M s1 s1.angle }
  updateHandlePosition M s2 s2.value

/-- The constructor, with `createSliderGroup()` inlined.  The only statement that can
throw on an options object with a container is `options.max.toString()`, a `TypeError`
when `max` is omitted; the character count it feeds (the CSS width of the readout) is
not part of the state. -/
def construct (M : JsMath K) (options : Options K) : Except JsError (Slider K) :=
  let color := match options.color with
    | some c => if c = "" then "#000" else c
    | none => "#000"
  let min := orDefault options.min 0
  let max := orDefault options.max 100
  let step := orDefault options.step 1
  let radius := options.radius
  let value := min
  let angle := -M.PI / 2
  match options.max with
  | none => .error .typeError
  | some _ =>
    let size := Min.min options.container.width options.container.height
    let cx := size / 2
    let cy := size / 2
    let strokeWidth := Max.max 6 (Min.min (Min.min (options.container.offsetWidth * (3 / 100))
      (options.container.offsetHeight * (3 / 100))) 25)
    let handleSize := Max.max 8 (Min.min (Min.min (options.container.offsetWidth * (3 / 100))
      (options.container.offsetHeight * (3 / 100))) 30)
    let s : Slider K :=
      { color := color, min := min, max := max, step := step, radius := radius,
        value := value, angle := angle, center := { x := cx, y := cy },
        strokeWidth := strokeWidth, handleSize := handleSize,
        handleCx := 0, handleCy := 0, arcD := [], readout := value, listening := false }
    .ok (updateHandlePosition M s s.value)

/-- The states a slider built as `s0` can be in: `s0` itself and every state that a
pointer-down, drag, pointer-up or click handler produces from one of them. -/
inductive Reachable (M : JsMath K) (s0 : Slider K) : Slider K → Prop where
  | init : Reachable M s0 s0
  | startDrag {s : Slider K} : Reachable M s0 s → Reachable M s0 (startDrag s)
  | onDrag {s : Slider K} (e : PointerEvent K) :
      Reachable M s0 s → Reachable M s0 (onDrag M s e)
  | stopDrag {s : Slider K} : Reachable M s0 s → Reachable M s0 (stopDrag s)
  | handleClick {s : Slider K} (e : PointerEvent K) :
      Reachable M s0 s → Reachable M s0 (handleClick M s e)

end Methods

/-- A slider state with the given bounds, step, radius, centre and value, and fixed
contents in the fields that the geometry does not read; the concrete examples use it. -/
def fixture {K : Type} [LinearOrderedField K] (min max step radius : K) (center : Point K)
    (value : K) : Slider K :=
  { color := "#000", min := min, max := max, step := step, radius := radius,
    value := value, angle := 0, center := center, strokeWidth := 6, handleSize := 8,
    handleCx := 0, handleCy := 0, arcD := [], readout := value, listening := false }

/-- The exact real `Math` object: `π`, the real cosine and sine, and `atan2(y, x)` as
the argument of `x + y i`, which lies in `(-π, π]`.  Real numbers are not executable;
this record is the one noncomputable definition. -/
noncomputable def realMath : JsMath ℝ where
  PI := Real.pi
  cos := Real.cos
  sin := Real.sin
  atan2 := fun y x => Complex.arg ⟨x, y⟩

/-! Auxiliary facts about the primitives -/

/-- Converting `d` degrees to radians and back to degrees, as `angleToValue` does. -/
theorem degrees_of_radians {K : Type} [LinearOrderedField K] (pi d : K) (hpi : 0 < pi) :
    (d * pi / 180) * 180 / pi = d := by
  field_simp

section Aux

variable {K : Type} [LinearOrderedField K] [FloorRing K]

theorem jsRem_of_nonneg (x m : K) (hx : 0 ≤ x) (hm : 0 < m) :
    jsRem x m = x - m * (⌊x / m⌋ : K) := by
  unfold jsRem
  rw [if_pos (div_nonneg hx hm.le)]

theorem jsRem_nonneg (x m : K) (hx : 0 ≤ x) (hm : 0 < m) : 0 ≤ jsRem x m := by
  rw [jsRem_of_nonneg x m hx hm]
  have h := Int.floor_le (x / m)
  have h2 : m * (⌊x / m⌋ : K) ≤ m * (x / m) := mul_le_mul_of_nonneg_left h hm.le
  rw [mul_div_cancel₀ x hm.ne'] at h2
  linarith

theorem jsRem_lt (x m : K) (hx : 0 ≤ x) (hm : 0 < m) : jsRem x m < m := by
  rw [jsRem_of_nonneg x m hx hm]
  have h := Int.lt_floor_add_one (x / m)
  have h2 : m * (x / m) < m * ((⌊x / m⌋ : K) + 1) := mul_lt_mul_of_pos_left h hm
  rw [mul_div_cancel₀ x hm.ne'] at h2
  linarith

theorem jsRem_eval (x m : K) (q : ℤ) (hx : 0 ≤ x) (hm : 0 < m)
    (h1 : (q : K) * m ≤ x) (h2 : x < ((q : K) + 1) * m) : jsRem x m = x - m * (q : K) := by
  rw [jsRem_of_nonneg x m hx hm]
  have hq : ⌊x / m⌋ = q := by
    rw [Int.floor_eq_iff]
    exact ⟨(le_div_iff₀ hm).2 h1, (div_lt_iff₀ hm).2 h2⟩
  rw [hq]

theorem jsRem_eval_neg (x m : K) (q : ℤ) (hx : x < 0) (hm : 0 < m)
    (h1 : ((q : K) - 1) * m < x) (h2 : x ≤ (q : K) * m) : jsRem x m = x - m * (q : K) := by
  unfold jsRem
  rw [if_neg (not_le.2 (div_neg_of_neg_of_pos hx hm))]
  have hq : ⌈x / m⌉ = q := by
    rw [Int.ceil_eq_iff]
    exact ⟨(lt_div_iff₀ hm).2 h1, (div_le_iff₀ hm).2 h2⟩
  rw [hq]

theorem jsRem_add_int_mul (x m : K) (n : ℤ) (hx : 0 ≤ x) (hx2 : 0 ≤ x + m * (n : K))
    (hm : 0 < m) : jsRem (x + m * (n : K)) m = jsRem x m := by
  rw [jsRem_of_nonneg _ _ hx2 hm, jsRem_of_nonneg _ _ hx hm]
  have e : (x + m * (n : K)) / m = x / m + (n : K) := by
    field_simp
    ring
  rw [e, Int.floor_add_int]
  push_cast
  ring

theorem jsRound_eval (x : K) (z : ℤ) (h1 : (z : K) ≤ x + 1 / 2) (h2 : x + 1 / 2 < (z : K) + 1) :
    jsRound x = (z : K) := by
  unfold jsRound
  rw [Int.floor_eq_iff.2 ⟨h1, h2⟩]

theorem jsRound_intCast (k : ℤ) : jsRound (k : K) = (k : K) := by
  apply jsRound_eval
  · linarith
  · linarith

theorem jsRound_nearest (x : K) (j : ℤ) : |jsRound x - x| ≤ |(j : K) - x| := by
  unfold jsRound
  have h1 := Int.floor_le (x + 1 / 2)
  have h2 := Int.lt_floor_add_one (x + 1 / 2)
  have hl : |((⌊x + 1 / 2⌋ : ℤ) : K) - x| ≤ 1 / 2 := by
    rw [abs_le]
    constructor <;> linarith
  rcases le_or_lt j ⌊x + 1 / 2⌋ with h | h
  · rcases eq_or_lt_of_le h with h | h
    · rw [h]
    · have h3 : j + 1 ≤ ⌊x + 1 / 2⌋ := h
      have h4 : ((j : K) + 1) ≤ (⌊x + 1 / 2⌋ : K) := by exact_mod_cast h3
      have h5 : (j : K) - x ≤ -(1 / 2) := by linarith
      have h6 : 1 / 2 ≤ |(j : K) - x| := by
        rw [abs_of_nonpos (by linarith)]
        linarith
      linarith
  · have h3 : ⌊x + 1 / 2⌋ + 1 ≤ j := h
    have h4 : ((⌊x + 1 / 2⌋ : K) + 1) ≤ (j : K) := by exact_mod_cast h3
    have h6 : 1 / 2 ≤ |(j : K) - x| := by
      rw [abs_of_nonneg (by linarith)]
      linarith
    linarith

theorem angleToValue_deg (M : JsMath K) (s : Slider K) (d : K) (hpi : 0 < M.PI) :
    angleToValue M s (d * M.PI / 180)
      = jsRound ((jsRem (d + 360 + 90) 360 / 360 * (s.max - s.min) + s.min) / s.step) * s.step := by
  unfold angleToValue
  simp only [degrees_of_radians M.PI d hpi]

end Aux

/-! The exact real instance -/

theorem realMath_PI_pos : 0 < realMath.PI := Real.pi_pos

theorem angleToValue_real_deg (s : Slider ℝ) (d : ℝ) :
    angleToValue realMath s (d * Real.pi / 180)
      = jsRound ((jsRem (d + 360 + 90) 360 / 360 * (s.max - s.min) + s.min) / s.step) * s.step :=
  angleToValue_deg realMath s d realMath_PI_pos

/-- The angle `a` in degrees, as a radian angle again. -/
theorem radians_of_degrees (a : ℝ) : a * 180 / Real.pi * Real.pi / 180 = a := by
  field_simp

/-- The real `atan2` at a point of the unit circle. -/
theorem arg_mk_cos_sin (θ : ℝ) (h1 : -Real.pi < θ) (h2 : θ ≤ Real.pi) :
    Complex.arg ⟨Real.cos θ, Real.sin θ⟩ = θ := by
  have h := Complex.arg_cos_add_sin_mul_I (θ := θ) ⟨h1, h2⟩
  have e : (⟨Real.cos θ, Real.sin θ⟩ : ℂ) = Complex.cos θ + Complex.sin θ * Complex.I := by
    apply Complex.ext
    · simp [← Complex.ofReal_cos, ← Complex.ofReal_sin]
    · simp [← Complex.ofReal_cos, ← Complex.ofReal_sin]
  rw [e, h]

/-- For a pointer angle in `[-π, π]` the dividend of `%` in `angleToValue` is positive. -/
theorem degrees_bounds (a : ℝ) (h1 : -Real.pi ≤ a) (h2 : a ≤ Real.pi) :
    -180 ≤ a * 180 / Real.pi ∧ a * 180 / Real.pi ≤ 180 := by
  have hp := Real.pi_pos
  constructor
  · rw [le_div_iff₀ hp]
    linarith
  · rw [div_le_iff₀ hp]
    linarith

/-! Periodicity (C4) -/

/-- C4, as stated, fails: with min = 0, max = 100, step = 1 the angle `-3π` (-540 degrees)
gives -25, while `-3π + 2π·1 = -π` gives 75: below -450 degrees the remainder `%` is
taken of a negative number and the result is negative. -/
theorem C4_counterexample :
    angleToValue realMath (fixture 0 100 1 150 ⟨200, 200⟩ 0) (-3 * Real.pi + 2 * Real.pi * ((1 : ℤ) : ℝ))
        = 75
      ∧ angleToValue realMath (fixture 0 100 1 150 ⟨200, 200⟩ 0) (-3 * Real.pi) = -25
      ∧ angleToValue realMath (fixture 0 100 1 150 ⟨200, 200⟩ 0)
            (-3 * Real.pi + 2 * Real.pi * ((1 : ℤ) : ℝ))
          ≠ angleToValue realMath (fixture 0 100 1 150 ⟨200, 200⟩ 0) (-3 * Real.pi) := by
  have hv : angleToValue realMath (fixture 0 100 1 150 ⟨200, 200⟩ 0)
      (-3 * Real.pi + 2 * Real.pi * ((1 : ℤ) : ℝ)) = 75 := by
    have e : -3 * Real.pi + 2 * Real.pi * ((1 : ℤ) : ℝ) = (-180) * Real.pi / 180 := by
      push_cast
      ring
    rw [e, angleToValue_real_deg,
      jsRem_eval (-180 + 360 + 90) 360 0 (by norm_num) (by norm_num) (by norm_num) (by norm_num)]
    simp only [fixture]
    rw [jsRound_eval _ 75 (by norm_num) (by norm_num)]
    norm_num
  have hw : angleToValue realMath (fixture 0 100 1 150 ⟨200, 200⟩ 0) (-3 * Real.pi) = -25 := by
    have e : -3 * Real.pi = (-540) * Real.pi / 180 := by ring
    rw [e, angleToValue_real_deg,
      jsRem_eval_neg (-540 + 360 + 90) 360 0 (by norm_num) (by norm_num) (by norm_num)
        (by norm_num)]
    simp only [fixture]
    rw [jsRound_eval _ (-25) (by norm_num) (by norm_num)]
    norm_num
  refine ⟨hv, hw, ?_⟩
  rw [hv, hw]
  norm_num

/-- C4, amended: for every configuration with min < max and step > 0, every real angle
`a` and every integer `n` such that `a` and `a + 2πn` are both at least -450 degrees
(`-5π/2`), `angleToValue(a + 2πn) = angleToValue(a)`. -/
theorem C4_periodic_from_minus_450 (s : Slider ℝ) (a : ℝ) (n : ℤ)
    (_ : s.min < s.max) (_ : 0 < s.step)
    (ha : -(5 / 2) * Real.pi ≤ a) (han : -(5 / 2) * Real.pi ≤ a + 2 * Real.pi * (n : ℝ)) :
    angleToValue realMath s (a + 2 * Real.pi * (n : ℝ)) = angleToValue realMath s a := by
  have hp := Real.pi_pos
  have e1 : a + 2 * Real.pi * (n : ℝ) = (a * 180 / Real.pi + 360 * (n : ℝ)) * Real.pi / 180 := by
    field_simp
    ring
  have e2 : a = (a * 180 / Real.pi) * Real.pi / 180 := (radians_of_degrees a).symm
  have hd : 0 ≤ a * 180 / Real.pi + 360 + 90 := by
    have : -450 ≤ a * 180 / Real.pi := by
      rw [le_div_iff₀ hp]
      linarith
    linarith
  have hdn : 0 ≤ a * 180 / Real.pi + 360 + 90 + 360 * (n : ℝ) := by
    have : -450 ≤ (a + 2 * Real.pi * (n : ℝ)) * 180 / Real.pi := by
      rw [le_div_iff₀ hp]
      linarith
    have e3 : (a + 2 * Real.pi * (n : ℝ)) * 180 / Real.pi = a * 180 / Real.pi + 360 * (n : ℝ) := by
      field_simp
      ring
    linarith
  rw [e1, angleToValue_real_deg]
  conv_rhs => rw [e2, angleToValue_real_deg]
  have e4 : a * 180 / Real.pi + 360 * (n : ℝ) + 360 + 90
      = (a * 180 / Real.pi + 360 + 90) + 360 * (n : ℝ) := by ring
  rw [e4, jsRem_add_int_mul _ _ n hd hdn (by norm_num)]

/-- C4 amended, at min = 0, max = 100, step = 1, `a = -π` and `n = 3`. -/
theorem C4_periodic_from_minus_450_witness :
    -(5 / 2) * Real.pi ≤ -Real.pi ∧ -(5 / 2) * Real.pi ≤ -Real.pi + 2 * Real.pi * ((3 : ℤ) : ℝ)
      ∧ angleToValue realMath (fixture 0 100 1 150 ⟨200, 200⟩ 0)
          (-Real.pi + 2 * Real.pi * ((3 : ℤ) : ℝ))
        = angleToValue realMath (fixture 0 100 1 150 ⟨200, 200⟩ 0) (-Real.pi) :=
  have h1 : -(5 / 2) * Real.pi ≤ -Real.pi := by linarith [Real.pi_pos]
  have h2 : -(5 / 2) * Real.pi ≤ -Real.pi + 2 * Real.pi * ((3 : ℤ) : ℝ) := by
    push_cast
    linarith [Real.pi_pos]
  ⟨h1, h2, C4_periodic_from_minus_450 (fixture 0 100 1 150 ⟨200, 200⟩ 0) (-Real.pi) 3
    (by norm_num [fixture]) (by norm_num [fixture]) h1 h2⟩

/-! The value computed from a pointer angle (C10, C3) -/

/-- For a pointer angle in `[-π, π]` the code's `normalized` is the representative in
`[0, 360)` of the angle in degrees plus 90. -/
theorem normalized_spec (a : ℝ) (h1 : -Real.pi ≤ a) (h2 : a ≤ Real.pi) :
    0 ≤ jsRem (a * 180 / Real.pi + 360 + 90) 360
      ∧ jsRem (a * 180 / Real.pi + 360 + 90) 360 < 360
      ∧ ∃ k : ℤ, jsRem (a * 180 / Real.pi + 360 + 90) 360 = a * 180 / Real.pi + 90 - 360 * (k : ℝ) := by
  obtain ⟨hd1, hd2⟩ := degrees_bounds a h1 h2
  have hx : 0 ≤ a * 180 / Real.pi + 360 + 90 := by linarith
  refine ⟨jsRem_nonneg _ _ hx (by norm_num), jsRem_lt _ _ hx (by norm_num), ?_⟩
  refine ⟨⌊(a * 180 / Real.pi + 360 + 90) / 360⌋ - 1, ?_⟩
  rw [jsRem_of_nonneg _ _ hx (by norm_num)]
  push_cast
  ring

/-- The value is `Math.round(raw / step) * step` for the code's `raw`. -/
theorem angleToValue_eq (s : Slider ℝ) (a : ℝ) :
    angleToValue realMath s a
      = jsRound ((jsRem (a * 180 / Real.pi + 360 + 90) 360 / 360 * (s.max - s.min) + s.min)
          / s.step) * s.step := rfl

/-- `Math.round(raw / step) * step` is a multiple of `step` nearest to `raw`. -/
theorem round_step_nearest (raw step : ℝ) (hstep : 0 < step) (j : ℤ) :
    |jsRound (raw / step) * step - raw| ≤ |(j : ℝ) * step - raw| := by
  have h := jsRound_nearest (raw / step) j
  have e1 : jsRound (raw / step) * step - raw = (jsRound (raw / step) - raw / step) * step := by
    field_simp
  have e2 : (j : ℝ) * step - raw = ((j : ℝ) - raw / step) * step := by
    field_simp
  rw [e1, e2, abs_mul, abs_mul, abs_of_pos hstep]
  exact mul_le_mul_of_nonneg_right h hstep.le

/-- C10: for min < max, step > 0 and a pointer angle `a` in `[-π, π]` there is a
normalized angle `n` with `0 ≤ n < 360` that differs from the angle in degrees plus 90
by a multiple of 360, and `angleToValue(a)` is a multiple of `step` that is nearest to
`min + (n/360)(max - min)`: no other multiple of `step` is closer.  With min = 0,
max = 100, step = 10 the atan2 angle of 155 degrees (245 degrees clockwise from
12 o'clock) resolves to 70. -/
theorem C10_angleToValue_formula :
    (∀ (s : Slider ℝ) (a : ℝ), s.min < s.max → 0 < s.step → -Real.pi ≤ a → a ≤ Real.pi →
      ∃ n : ℝ, 0 ≤ n ∧ n < 360 ∧ (∃ k : ℤ, n = a * 180 / Real.pi + 90 - 360 * (k : ℝ))
        ∧ (∃ m : ℤ, angleToValue realMath s a = (m : ℝ) * s.step)
        ∧ ∀ j : ℤ, |angleToValue realMath s a - (s.min + n / 360 * (s.max - s.min))|
            ≤ |(j : ℝ) * s.step - (s.min + n / 360 * (s.max - s.min))|)
      ∧ angleToValue realMath (fixture 0 100 10 150 ⟨200, 200⟩ 0) (155 * Real.pi / 180) = 70 := by
  constructor
  · intro s a _ hstep h1 h2
    obtain ⟨hn0, hn1, hk⟩ := normalized_spec a h1 h2
    refine ⟨jsRem (a * 180 / Real.pi + 360 + 90) 360, hn0, hn1, hk, ?_, ?_⟩
    · exact ⟨⌊(jsRem (a * 180 / Real.pi + 360 + 90) 360 / 360 * (s.max - s.min) + s.min)
        / s.step + 1 / 2⌋, rfl⟩
    · intro j
      rw [angleToValue_eq, add_comm s.min]
      exact round_step_nearest _ _ hstep j
  · rw [angleToValue_real_deg,
      jsRem_eval (155 + 360 + 90) 360 1 (by norm_num) (by norm_num) (by norm_num) (by norm_num)]
    simp only [fixture]
    rw [jsRound_eval _ 7 (by norm_num) (by norm_num)]
    norm_num

/-- C10 at min = 0, max = 100, step = 10 and the atan2 angle of 155 degrees. -/
theorem C10_angleToValue_formula_witness :
    ∃ n : ℝ, 0 ≤ n ∧ n < 360
      ∧ (∃ k : ℤ, n = (155 * Real.pi / 180) * 180 / Real.pi + 90 - 360 * (k : ℝ))
      ∧ (∃ m : ℤ, angleToValue realMath (fixture 0 100 10 150 ⟨200, 200⟩ 0) (155 * Real.pi / 180)
          = (m : ℝ) * 10)
      ∧ ∀ j : ℤ, |angleToValue realMath (fixture 0 100 10 150 ⟨200, 200⟩ 0) (155 * Real.pi / 180)
            - (0 + n / 360 * (100 - 0))|
          ≤ |(j : ℝ) * 10 - (0 + n / 360 * (100 - 0))| :=
  C10_angleToValue_formula.1 (fixture 0 100 10 150 ⟨200, 200⟩ 0) (155 * Real.pi / 180)
    (by norm_num [fixture]) (by norm_num [fixture]) (by linarith [Real.pi_pos])
    (by linarith [Real.pi_pos])

/-- C3, as stated, fails: with min = 1, max = 10, step = 4 the pointer angle `-π/2`
(12 o'clock) gives the value 0, which is not `1 + 4k` for any integer `k`. -/
theorem C3_counterexample :
    -Real.pi ≤ -Real.pi / 2 ∧ -Real.pi / 2 ≤ Real.pi
      ∧ angleToValue realMath (fixture 1 10 4 150 ⟨200, 200⟩ 1) (-Real.pi / 2) = 0
      ∧ ¬ ∃ k : ℤ, angleToValue realMath (fixture 1 10 4 150 ⟨200, 200⟩ 1) (-Real.pi / 2)
          = 1 + (k : ℝ) * 4 := by
  have hv : angleToValue realMath (fixture 1 10 4 150 ⟨200, 200⟩ 1) (-Real.pi / 2) = 0 := by
    have e : -Real.pi / 2 = (-90) * Real.pi / 180 := by ring
    rw [e, angleToValue_real_deg,
      jsRem_eval (-90 + 360 + 90) 360 1 (by norm_num) (by norm_num) (by norm_num) (by norm_num)]
    simp only [fixture]
    rw [jsRound_eval _ 0 (by norm_num) (by norm_num)]
    norm_num
  refine ⟨by linarith [Real.pi_pos], by linarith [Real.pi_pos], hv, ?_⟩
  rintro ⟨k, hk⟩
  rw [hv] at hk
  have h : (0 : ℤ) = 1 + k * 4 := by exact_mod_cast hk
  omega

/-- C3, amended: for every configuration with min < max and step > 0 in which `min` is
an integer multiple of `step`, and every pointer angle `a` in `[-π, π]`, the value
returned by `angleToValue(a)`, and so `this.value` after every `onDrag` or
`handleClick`, is `min + k·step` for an integer `k`. -/
theorem C3_value_on_step_grid (s : Slider ℝ) (j : ℤ) (_ : s.min < s.max) (_ : 0 < s.step)
    (hmin : s.min = (j : ℝ) * s.step) :
    (∀ a : ℝ, -Real.pi ≤ a → a ≤ Real.pi →
        ∃ k : ℤ, angleToValue realMath s a = s.min + (k : ℝ) * s.step)
      ∧ (∀ e : PointerEvent ℝ, ∃ k : ℤ, (onDrag realMath s e).value = s.min + (k : ℝ) * s.step)
      ∧ ∀ e : PointerEvent ℝ,
          ∃ k : ℤ, (handleClick realMath s e).value = s.min + (k : ℝ) * s.step := by
  have h : ∀ a : ℝ, ∃ k : ℤ, angleToValue realMath s a = s.min + (k : ℝ) * s.step := by
    intro a
    refine ⟨⌊(jsRem (a * 180 / Real.pi + 360 + 90) 360 / 360 * (s.max - s.min) + s.min)
        / s.step + 1 / 2⌋ - j, ?_⟩
    rw [angleToValue_eq]
    unfold jsRound
    rw [hmin]
    push_cast
    ring
  exact ⟨fun a _ _ => h a, fun e => h _, fun e => h _⟩

/-- C3 amended, at min = 20, max = 100, step = 10 and the pointer angle 0 (3 o'clock). -/
theorem C3_value_on_step_grid_witness :
    ∃ k : ℤ, angleToValue realMath (fixture 20 100 10 150 ⟨200, 200⟩ 20) 0
      = (fixture (20 : ℝ) 100 10 150 ⟨200, 200⟩ 20).min
        + (k : ℝ) * (fixture (20 : ℝ) 100 10 150 ⟨200, 200⟩ 20).step :=
  (C3_value_on_step_grid (fixture 20 100 10 150 ⟨200, 200⟩ 20) 2 (by norm_num [fixture])
    (by norm_num [fixture]) (by norm_num [fixture])).1 0 (by linarith [Real.pi_pos])
    (by linarith [Real.pi_pos])

/-! Range of the value (C2) -/

/-- What a successful construction stores. -/
theorem construct_ok {K : Type} [LinearOrderedField K] (M : JsMath K) (options : Options K) (s0 : Slider K)
    (hc : construct M options = .ok s0) :
    s0.value = s0.min ∧ s0.min = orDefault options.min 0 ∧ s0.max = orDefault options.max 100
      ∧ s0.step = orDefault options.step 1 ∧ options.max ≠ none := by
  unfold construct at hc
  cases hmax : options.max with
  | none =>
    rw [hmax] at hc
    cases hc
  | some x =>
    rw [hmax] at hc
    injection hc with hc
    subst hc
    exact ⟨rfl, rfl, rfl, rfl, by simp⟩

section Handlers

variable {K : Type} [LinearOrderedField K] [FloorRing K]

theorem onDrag_value (M : JsMath K) (s : Slider K) (e : PointerEvent K) :
    (onDrag M s e).value = angleToValue M s (getAngleFromEvent M s e) := rfl

theorem handleClick_value (M : JsMath K) (s : Slider K) (e : PointerEvent K) :
    (handleClick M s e).value = angleToValue M s (getAngleFromEvent M s e) := rfl

end Handlers

/-- The real `atan2` of a pointer event lies in `[-π, π]`. -/
theorem getAngleFromEvent_bounds (s : Slider ℝ) (e : PointerEvent ℝ) :
    -Real.pi ≤ getAngleFromEvent realMath s e ∧ getAngleFromEvent realMath s e ≤ Real.pi :=
  ⟨(Complex.neg_pi_lt_arg _).le, Complex.arg_le_pi _⟩

/-- With both bounds on the grid of multiples of `step`, the value computed from a
pointer angle in `[-π, π]` lies between them. -/
theorem angleToValue_mem_range (s : Slider ℝ) (j m : ℤ) (hlt : s.min < s.max)
    (hstep : 0 < s.step) (hmin : s.min = (j : ℝ) * s.step) (hmax : s.max = (m : ℝ) * s.step)
    (a : ℝ) (h1 : -Real.pi ≤ a) (h2 : a ≤ Real.pi) :
    s.min ≤ angleToValue realMath s a ∧ angleToValue realMath s a ≤ s.max := by
  obtain ⟨hn0, hn1, -⟩ := normalized_spec a h1 h2
  rw [angleToValue_eq]
  set n := jsRem (a * 180 / Real.pi + 360 + 90) 360 with hn
  have hr : 0 < s.max - s.min := by linarith
  have hraw1 : s.min ≤ n / 360 * (s.max - s.min) + s.min := by
    have : 0 ≤ n / 360 * (s.max - s.min) := by positivity
    linarith
  have hraw2 : n / 360 * (s.max - s.min) + s.min < s.max := by
    have h3 : n / 360 < 1 := by
      rw [div_lt_iff₀ (by norm_num)]
      linarith
    have : n / 360 * (s.max - s.min) < 1 * (s.max - s.min) := mul_lt_mul_of_pos_right h3 hr
    linarith
  have hq1 : (j : ℝ) ≤ (n / 360 * (s.max - s.min) + s.min) / s.step := by
    rw [le_div_iff₀ hstep, ← hmin]
    exact hraw1
  have hq2 : (n / 360 * (s.max - s.min) + s.min) / s.step < (m : ℝ) := by
    rw [div_lt_iff₀ hstep, ← hmax]
    exact hraw2
  unfold jsRound
  constructor
  · have h : j ≤ ⌊(n / 360 * (s.max - s.min) + s.min) / s.step + 1 / 2⌋ := by
      rw [Int.le_floor]
      linarith
    have h4 : (j : ℝ) ≤ (⌊(n / 360 * (s.max - s.min) + s.min) / s.step + 1 / 2⌋ : ℝ) := by
      exact_mod_cast h
    have h5 := mul_le_mul_of_nonneg_right h4 hstep.le
    rw [← hmin] at h5
    exact h5
  · have h : ⌊(n / 360 * (s.max - s.min) + s.min) / s.step + 1 / 2⌋ < m + 1 := by
      rw [Int.floor_lt]
      push_cast
      linarith
    have h3 : ⌊(n / 360 * (s.max - s.min) + s.min) / s.step + 1 / 2⌋ ≤ m := by omega
    have h4 : (⌊(n / 360 * (s.max - s.min) + s.min) / s.step + 1 / 2⌋ : ℝ) ≤ (m : ℝ) := by
      exact_mod_cast h3
    have h5 := mul_le_mul_of_nonneg_right h4 hstep.le
    rw [← hmax] at h5
    exact h5

/-- C2, as stated, fails in both directions: with min = 1, max = 10, step = 4 the
pointer angle `-π/2` gives 0, below min; with min = 0, max = 7, step = 4 the pointer
angle of -140 degrees gives 8, above max. -/
theorem C2_counterexample :
    (-Real.pi ≤ -Real.pi / 2 ∧ -Real.pi / 2 ≤ Real.pi
        ∧ angleToValue realMath (fixture 1 10 4 150 ⟨200, 200⟩ 1) (-Real.pi / 2) = 0
        ∧ angleToValue realMath (fixture 1 10 4 150 ⟨200, 200⟩ 1) (-Real.pi / 2)
            < (fixture (1 : ℝ) 10 4 150 ⟨200, 200⟩ 1).min)
      ∧ (-Real.pi ≤ -140 * Real.pi / 180 ∧ -140 * Real.pi / 180 ≤ Real.pi
        ∧ angleToValue realMath (fixture 0 7 4 150 ⟨200, 200⟩ 0) (-140 * Real.pi / 180) = 8
        ∧ (fixture (0 : ℝ) 7 4 150 ⟨200, 200⟩ 0).max
            < angleToValue realMath (fixture 0 7 4 150 ⟨200, 200⟩ 0) (-140 * Real.pi / 180)) := by
  have hv : angleToValue realMath (fixture 1 10 4 150 ⟨200, 200⟩ 1) (-Real.pi / 2) = 0 := by
    have e : -Real.pi / 2 = (-90) * Real.pi / 180 := by ring
    rw [e, angleToValue_real_deg,
      jsRem_eval (-90 + 360 + 90) 360 1 (by norm_num) (by norm_num) (by norm_num) (by norm_num)]
    simp only [fixture]
    rw [jsRound_eval _ 0 (by norm_num) (by norm_num)]
    norm_num
  have hw : angleToValue realMath (fixture 0 7 4 150 ⟨200, 200⟩ 0) (-140 * Real.pi / 180) = 8 := by
    rw [angleToValue_real_deg,
      jsRem_eval (-140 + 360 + 90) 360 0 (by norm_num) (by norm_num) (by norm_num) (by norm_num)]
    simp only [fixture]
    rw [jsRound_eval _ 2 (by norm_num) (by norm_num)]
    norm_num
  refine ⟨⟨by linarith [Real.pi_pos], by linarith [Real.pi_pos], hv, ?_⟩,
    ⟨by linarith [Real.pi_pos], by linarith [Real.pi_pos], hw, ?_⟩⟩
  · rw [hv]
    norm_num [fixture]
  · rw [hw]
    norm_num [fixture]

/-- C2, amended: for every constructed slider with min < max, step > 0 and both min and
max integer multiples of step, every pointer angle `a` in `[-π, π]` gives
`min ≤ angleToValue(a) ≤ max`, and `min ≤ value ≤ max` holds (with min, max and step
unchanged) in every state reachable from the construction by pointer-down, drag,
pointer-up and click events. -/
theorem C2_value_in_range (options : Options ℝ) (s0 : Slider ℝ)
    (hc : construct realMath options = .ok s0) (hlt : s0.min < s0.max) (hstep : 0 < s0.step)
    (j m : ℤ) (hmin : s0.min = (j : ℝ) * s0.step) (hmax : s0.max = (m : ℝ) * s0.step) :
    (∀ a : ℝ, -Real.pi ≤ a → a ≤ Real.pi →
        s0.min ≤ angleToValue realMath s0 a ∧ angleToValue realMath s0 a ≤ s0.max)
      ∧ ∀ s : Slider ℝ, Reachable realMath s0 s →
          s.min = s0.min ∧ s.max = s0.max ∧ s.step = s0.step
            ∧ s.min ≤ s.value ∧ s.value ≤ s.max := by
  refine ⟨fun a h1 h2 => angleToValue_mem_range s0 j m hlt hstep hmin hmax a h1 h2, ?_⟩
  intro s hs
  induction hs with
  | init =>
    obtain ⟨hv, -⟩ := construct_ok realMath options s0 hc
    exact ⟨rfl, rfl, rfl, by rw [hv], by rw [hv]; exact hlt.le⟩
  | startDrag _ ih => exact ih
  | stopDrag _ ih => exact ih
  | @onDrag t e _ ih =>
    obtain ⟨e1, e2, e3, -, -⟩ := ih
    obtain ⟨b1, b2⟩ := getAngleFromEvent_bounds t e
    have h := angleToValue_mem_range t j m (by rw [e1, e2]; exact hlt) (by rw [e3]; exact hstep)
      (by rw [e1, e3]; exact hmin) (by rw [e2, e3]; exact hmax) _ b1 b2
    exact ⟨e1, e2, e3, h.1, h.2⟩
  | @handleClick t e _ ih =>
    obtain ⟨e1, e2, e3, -, -⟩ := ih
    obtain ⟨b1, b2⟩ := getAngleFromEvent_bounds t e
    have h := angleToValue_mem_range t j m (by rw [e1, e2]; exact hlt) (by rw [e3]; exact hstep)
      (by rw [e1, e3]; exact hmin) (by rw [e2, e3]; exact hmax) _ b1 b2
    exact ⟨e1, e2, e3, h.1, h.2⟩

/-- C2 amended, at the slider constructed from min = 0, max = 100, step = 1, radius 150
in a 400 by 400 container. -/
theorem C2_value_in_range_witness :
    ∃ s0 : Slider ℝ,
      construct realMath ⟨⟨400, 400, 400, 400⟩, none, some 0, some 100, some 1, 150⟩ = .ok s0
        ∧ s0.min < s0.max ∧ 0 < s0.step
        ∧ s0.min = ((0 : ℤ) : ℝ) * s0.step ∧ s0.max = ((100 : ℤ) : ℝ) * s0.step
        ∧ ((∀ a : ℝ, -Real.pi ≤ a → a ≤ Real.pi →
              s0.min ≤ angleToValue realMath s0 a ∧ angleToValue realMath s0 a ≤ s0.max)
            ∧ ∀ s : Slider ℝ, Reachable realMath s0 s →
                s.min = s0.min ∧ s.max = s0.max ∧ s.step = s0.step
                  ∧ s.min ≤ s.value ∧ s.value ≤ s.max) := by
  obtain ⟨s0, hc⟩ : ∃ s0 : Slider ℝ,
      construct realMath ⟨⟨400, 400, 400, 400⟩, none, some 0, some 100, some 1, 150⟩ = .ok s0 :=
    ⟨_, rfl⟩
  obtain ⟨-, h1, h2, h3, -⟩ := construct_ok _ _ _ hc
  have hmin : s0.min = 0 := by
    rw [h1]
    simp [orDefault]
  have hmax : s0.max = 100 := by
    rw [h2]
    norm_num [orDefault]
  have hstep : s0.step = 1 := by
    rw [h3]
    norm_num [orDefault]
  have g1 : s0.min < s0.max := by
    rw [hmin, hmax]
    norm_num
  have g2 : 0 < s0.step := by
    rw [hstep]
    norm_num
  have g3 : s0.min = ((0 : ℤ) : ℝ) * s0.step := by
    rw [hmin]
    simp
  have g4 : s0.max = ((100 : ℤ) : ℝ) * s0.step := by
    rw [hmax, hstep]
    norm_num
  exact ⟨s0, hc, g1, g2, g3, g4, C2_value_in_range _ s0 hc g1 g2 0 100 g3 g4⟩

/-! Round trip (C1) -/

/-- C1, as stated, fails at `v = max` and when `min` is not a multiple of `step`: with
min = 0, max = 100, step = 1 the handle angle of `v = 100` is mapped back to 0; with
min = 1, max = 11, step = 2 the handle angle of the grid value `v = 3 = 1 + 1·2` is
mapped back to 4. -/
theorem C1_counterexample :
    (angleToValue realMath (fixture 0 100 1 150 ⟨200, 200⟩ 0)
          (adjustedAngle realMath (fixture 0 100 1 150 ⟨200, 200⟩ 0) 100) = 0
        ∧ angleToValue realMath (fixture 0 100 1 150 ⟨200, 200⟩ 0)
          (adjustedAngle realMath (fixture 0 100 1 150 ⟨200, 200⟩ 0) 100) ≠ 100)
      ∧ ((3 : ℝ) = 1 + ((1 : ℤ) : ℝ) * 2
        ∧ angleToValue realMath (fixture 1 11 2 150 ⟨200, 200⟩ 1)
          (adjustedAngle realMath (fixture 1 11 2 150 ⟨200, 200⟩ 1) 3) = 4
        ∧ angleToValue realMath (fixture 1 11 2 150 ⟨200, 200⟩ 1)
          (adjustedAngle realMath (fixture 1 11 2 150 ⟨200, 200⟩ 1) 3) ≠ 3) := by
  have hv : angleToValue realMath (fixture 0 100 1 150 ⟨200, 200⟩ 0)
      (adjustedAngle realMath (fixture 0 100 1 150 ⟨200, 200⟩ 0) 100) = 0 := by
    have e : adjustedAngle realMath (fixture 0 100 1 150 ⟨200, 200⟩ 0) 100
        = 270 * Real.pi / 180 := by
      simp only [adjustedAngle, fixture, realMath]
      ring
    rw [e, angleToValue_real_deg,
      jsRem_eval (270 + 360 + 90) 360 2 (by norm_num) (by norm_num) (by norm_num) (by norm_num)]
    simp only [fixture]
    rw [jsRound_eval _ 0 (by norm_num) (by norm_num)]
    norm_num
  have hw : angleToValue realMath (fixture 1 11 2 150 ⟨200, 200⟩ 1)
      (adjustedAngle realMath (fixture 1 11 2 150 ⟨200, 200⟩ 1) 3) = 4 := by
    have e : adjustedAngle realMath (fixture 1 11 2 150 ⟨200, 200⟩ 1) 3
        = (-18) * Real.pi / 180 := by
      simp only [adjustedAngle, fixture, realMath]
      ring
    rw [e, angleToValue_real_deg,
      jsRem_eval (-18 + 360 + 90) 360 1 (by norm_num) (by norm_num) (by norm_num) (by norm_num)]
    simp only [fixture]
    rw [jsRound_eval _ 2 (by norm_num) (by norm_num)]
    norm_num
  refine ⟨⟨hv, ?_⟩, ⟨by norm_num, hw, ?_⟩⟩
  · rw [hv]
    norm_num
  · rw [hw]
    norm_num

/-- C1, amended: for every configuration with min < max and step > 0 in which `min` is
an integer multiple of `step`, and every value `v = min + k·step` (`k` an integer) with
`min ≤ v < max`, `angleToValue` applied to the handle angle
`((v - min)/(max - min))·2π - π/2` that `updateHandlePosition` computes returns `v`. -/
theorem C1_round_trip_below_max (s : Slider ℝ) (v : ℝ) (k j : ℤ) (hlt : s.min < s.max)
    (hstep : 0 < s.step) (hmin : s.min = (j : ℝ) * s.step)
    (hv : v = s.min + (k : ℝ) * s.step) (h1 : s.min ≤ v) (h2 : v < s.max) :
    angleToValue realMath s (adjustedAngle realMath s v) = v := by
  have hr : 0 < s.max - s.min := by linarith
  have hp0 : 0 ≤ (v - s.min) / (s.max - s.min) := div_nonneg (by linarith) hr.le
  have hp1 : (v - s.min) / (s.max - s.min) < 1 := by
    rw [div_lt_one hr]
    linarith
  have e : adjustedAngle realMath s v
      = ((v - s.min) / (s.max - s.min) * 360 - 90) * Real.pi / 180 := by
    simp only [adjustedAngle, realMath]
    ring
  rw [e, angleToValue_real_deg,
    jsRem_eval _ 360 1 (by linarith) (by norm_num) (by push_cast; linarith)
      (by push_cast; linarith)]
  have e2 : ((v - s.min) / (s.max - s.min) * 360 - 90 + 360 + 90 - 360 * ((1 : ℤ) : ℝ)) / 360
      * (s.max - s.min) + s.min = v := by
    push_cast
    field_simp
    ring
  have e3 : v / s.step = (((j + k : ℤ)) : ℝ) := by
    rw [hv, hmin]
    push_cast
    field_simp
    ring
  rw [e2, e3, jsRound_intCast, hv, hmin]
  push_cast
  ring

/-- C1 amended, at min = 0, max = 100, step = 10 and `v = 30`. -/
theorem C1_round_trip_below_max_witness :
    angleToValue realMath (fixture 0 100 10 150 ⟨200, 200⟩ 0)
      (adjustedAngle realMath (fixture 0 100 10 150 ⟨200, 200⟩ 0) 30) = 30 :=
  C1_round_trip_below_max (fixture 0 100 10 150 ⟨200, 200⟩ 0) 30 3 0 (by norm_num [fixture])
    (by norm_num [fixture]) (by norm_num [fixture]) (by norm_num [fixture])
    (by norm_num [fixture]) (by norm_num [fixture])

/-! Dragging past 12 o'clock (C5) -/

/-- The pointer one degree clockwise past 12 o'clock, at distance 1 from the centre
(200, 200), has the atan2 angle of -89 degrees. -/
theorem getAngleFromEvent_one_degree (s : Slider ℝ) (hc : s.center = ⟨200, 200⟩) :
    getAngleFromEvent realMath s
      ⟨200 + Real.cos (-89 * Real.pi / 180), 200 + Real.sin (-89 * Real.pi / 180)⟩
      = -89 * Real.pi / 180 := by
  simp only [getAngleFromEvent, realMath, hc, add_sub_cancel_left]
  exact arg_mk_cos_sin _ (by linarith [Real.pi_pos]) (by linarith [Real.pi_pos])

/-- C5, as stated, fails: with min = 0, max = 100, step = 1 and the value at max = 100,
a drag to the point one degree clockwise past 12 o'clock leaves the value 0, which is
min and not max. -/
theorem C5_counterexample :
    (fixture (0 : ℝ) 100 1 150 ⟨200, 200⟩ 100).value = (fixture (0 : ℝ) 100 1 150 ⟨200, 200⟩ 100).max
      ∧ (onDrag realMath (fixture 0 100 1 150 ⟨200, 200⟩ 100)
          ⟨200 + Real.cos (-89 * Real.pi / 180), 200 + Real.sin (-89 * Real.pi / 180)⟩).value = 0
      ∧ (onDrag realMath (fixture 0 100 1 150 ⟨200, 200⟩ 100)
          ⟨200 + Real.cos (-89 * Real.pi / 180), 200 + Real.sin (-89 * Real.pi / 180)⟩).value
          = (fixture (0 : ℝ) 100 1 150 ⟨200, 200⟩ 100).min
      ∧ (onDrag realMath (fixture 0 100 1 150 ⟨200, 200⟩ 100)
          ⟨200 + Real.cos (-89 * Real.pi / 180), 200 + Real.sin (-89 * Real.pi / 180)⟩).value
          ≠ (fixture (0 : ℝ) 100 1 150 ⟨200, 200⟩ 100).max := by
  have hv : (onDrag realMath (fixture 0 100 1 150 ⟨200, 200⟩ 100)
      ⟨200 + Real.cos (-89 * Real.pi / 180), 200 + Real.sin (-89 * Real.pi / 180)⟩).value = 0 := by
    rw [onDrag_value, getAngleFromEvent_one_degree _ rfl, angleToValue_real_deg,
      jsRem_eval (-89 + 360 + 90) 360 1 (by norm_num) (by norm_num) (by norm_num) (by norm_num)]
    simp only [fixture]
    rw [jsRound_eval _ 0 (by norm_num) (by norm_num)]
    norm_num
  refine ⟨rfl, hv, ?_, ?_⟩
  · rw [hv]
    rfl
  · rw [hv]
    norm_num [fixture]

/-- C5, amended: for every configuration with min < max and 0 < step ≤ max - min, if the
value is max and `onDrag` receives a pointer whose atan2 angle `a` is in `[-π/2, π/2)`,
that is `n = a·180/π + 90` degrees clockwise from 12 o'clock with `0 ≤ n < 180`, then the
value after `onDrag` is `Math.round((min + (n/360)(max - min)) / step) · step`, whatever
the value was before, and it is strictly below max.  With min = 0, max = 100, step = 1 and
the pointer one degree past 12 o'clock it is 0. -/
theorem C5_onDrag_past_twelve :
    (∀ (s : Slider ℝ) (e : PointerEvent ℝ), s.min < s.max → 0 < s.step →
      s.step ≤ s.max - s.min → s.value = s.max →
      -Real.pi / 2 ≤ getAngleFromEvent realMath s e →
      getAngleFromEvent realMath s e < Real.pi / 2 →
      (onDrag realMath s e).value
          = jsRound ((s.min + (getAngleFromEvent realMath s e * 180 / Real.pi + 90) / 360
              * (s.max - s.min)) / s.step) * s.step
        ∧ (onDrag realMath s e).value < s.max)
      ∧ (onDrag realMath (fixture 0 100 1 150 ⟨200, 200⟩ 100)
          ⟨200 + Real.cos (-89 * Real.pi / 180), 200 + Real.sin (-89 * Real.pi / 180)⟩).value
          = 0 := by
  constructor
  · intro s e hlt hstep hle _ h1 h2
    have hp := Real.pi_pos
    set a := getAngleFromEvent realMath s e with ha
    have hd1 : -90 ≤ a * 180 / Real.pi := by
      rw [le_div_iff₀ hp]
      linarith
    have hd2 : a * 180 / Real.pi < 90 := by
      rw [div_lt_iff₀ hp]
      linarith
    have hrem : jsRem (a * 180 / Real.pi + 360 + 90) 360 = a * 180 / Real.pi + 90 := by
      rw [jsRem_eval _ 360 1 (by linarith) (by norm_num) (by push_cast; linarith)
        (by push_cast; linarith)]
      push_cast
      ring
    have hval : (onDrag realMath s e).value
        = jsRound ((s.min + (a * 180 / Real.pi + 90) / 360 * (s.max - s.min)) / s.step)
            * s.step := by
      rw [onDrag_value, ← ha, angleToValue_eq, hrem, add_comm s.min]
    refine ⟨hval, ?_⟩
    rw [hval]
    set raw := s.min + (a * 180 / Real.pi + 90) / 360 * (s.max - s.min) with hraw
    have hr : 0 < s.max - s.min := by linarith
    have hraw2 : raw < s.min + (s.max - s.min) / 2 := by
      have h3 : (a * 180 / Real.pi + 90) / 360 < 1 / 2 := by
        rw [div_lt_iff₀ (by norm_num)]
        linarith
      have := mul_lt_mul_of_pos_right h3 hr
      rw [hraw]
      linarith
    have hfl : jsRound (raw / s.step) ≤ raw / s.step + 1 / 2 := Int.floor_le _
    have h4 : jsRound (raw / s.step) * s.step ≤ (raw / s.step + 1 / 2) * s.step :=
      mul_le_mul_of_nonneg_right hfl hstep.le
    have h5 : (raw / s.step + 1 / 2) * s.step = raw + s.step / 2 := by
      field_simp
      ring
    linarith
  · rw [onDrag_value, getAngleFromEvent_one_degree _ rfl, angleToValue_real_deg,
      jsRem_eval (-89 + 360 + 90) 360 1 (by norm_num) (by norm_num) (by norm_num) (by norm_num)]
    simp only [fixture]
    rw [jsRound_eval _ 0 (by norm_num) (by norm_num)]
    norm_num

/-- C5 amended, at min = 0, max = 100, step = 1, the value at 100 and the pointer one
degree clockwise past 12 o'clock. -/
theorem C5_onDrag_past_twelve_witness :
    (onDrag realMath (fixture 0 100 1 150 ⟨200, 200⟩ 100)
        ⟨200 + Real.cos (-89 * Real.pi / 180), 200 + Real.sin (-89 * Real.pi / 180)⟩).value
      < (fixture (0 : ℝ) 100 1 150 ⟨200, 200⟩ 100).max :=
  (C5_onDrag_past_twelve.1 (fixture 0 100 1 150 ⟨200, 200⟩ 100)
    ⟨200 + Real.cos (-89 * Real.pi / 180), 200 + Real.sin (-89 * Real.pi / 180)⟩
    (by norm_num [fixture]) (by norm_num [fixture]) (by norm_num [fixture]) rfl
    (by rw [getAngleFromEvent_one_degree _ rfl]; linarith [Real.pi_pos])
    (by rw [getAngleFromEvent_one_degree _ rfl]; linarith [Real.pi_pos])).2

/-! Construction (C6, C7) -/

/-- C6, as stated, fails: the options min = 10, max = 5, step = -1 construct a picker,
with max ≤ min and step ≤ 0. -/
theorem C6_counterexample :
    ∃ s : Slider ℝ,
      construct realMath ⟨⟨400, 400, 400, 400⟩, none, some 10, some 5, some (-1), 150⟩ = .ok s
        ∧ s.min = 10 ∧ s.max = 5 ∧ s.step = -1 ∧ s.max ≤ s.min ∧ s.step ≤ 0 := by
  obtain ⟨s, hc⟩ : ∃ s : Slider ℝ,
      construct realMath ⟨⟨400, 400, 400, 400⟩, none, some 10, some 5, some (-1), 150⟩ = .ok s :=
    ⟨_, rfl⟩
  obtain ⟨-, h1, h2, h3, -⟩ := construct_ok _ _ _ hc
  have hmin : s.min = 10 := by
    rw [h1]
    norm_num [orDefault]
  have hmax : s.max = 5 := by
    rw [h2]
    norm_num [orDefault]
  have hstep : s.step = -1 := by
    rw [h3]
    norm_num [orDefault]
  refine ⟨s, hc, hmin, hmax, hstep, ?_, ?_⟩
  · rw [hmin, hmax]
    norm_num
  · rw [hstep]
    norm_num

/-- C6, amended: construction validates nothing.  For every options object that supplies
container, radius and max, construction returns a picker; its min is the supplied min
(0 when omitted), its max is the supplied max when that is not 0, and its step is the
supplied step when that is not 0 (1 when omitted), whatever their order and sign.  So
picker states with max ≤ min or step < 0 are produced. -/
theorem C6_construct_no_validation (options : Options ℝ) (x : ℝ) (hmax : options.max = some x) :
    ∃ s : Slider ℝ, construct realMath options = .ok s
      ∧ (∀ y : ℝ, options.min = some y → s.min = y) ∧ (options.min = none → s.min = 0)
      ∧ (x ≠ 0 → s.max = x)
      ∧ (∀ z : ℝ, options.step = some z → z ≠ 0 → s.step = z)
      ∧ (options.step = none → s.step = 1) := by
  obtain ⟨s, hc⟩ : ∃ s : Slider ℝ, construct realMath options = .ok s := by
    unfold construct
    rw [hmax]
    exact ⟨_, rfl⟩
  obtain ⟨-, h1, h2, h3, -⟩ := construct_ok _ _ _ hc
  refine ⟨s, hc, ?_, ?_, ?_, ?_, ?_⟩
  · intro y hy
    rw [h1, hy]
    unfold orDefault
    by_cases h : y = 0
    · simp [h]
    · simp [h]
  · intro hn
    rw [h1, hn]
    rfl
  · intro hx
    rw [h2, hmax]
    simp [orDefault, hx]
  · intro z hz hz0
    rw [h3, hz]
    simp [orDefault, hz0]
  · intro hn
    rw [h3, hn]
    rfl

/-- C6 amended, at the options min = 10, max = 5, step = -1: a picker with min = 10,
max = 5 and step = -1 is returned. -/
theorem C6_construct_no_validation_witness :
    ∃ s : Slider ℝ,
      construct realMath ⟨⟨400, 400, 400, 400⟩, none, some 10, some 5, some (-1), 150⟩ = .ok s
        ∧ s.min = 10 ∧ s.max = 5 ∧ s.step = -1 := by
  obtain ⟨s, hc, h1, -, h2, h3, -⟩ := C6_construct_no_validation
    ⟨⟨400, 400, 400, 400⟩, none, some 10, some 5, some (-1), 150⟩ 5 rfl
  exact ⟨s, hc, h1 10 rfl, h2 (by norm_num), h3 (-1) rfl (by norm_num)⟩

/-- C7 fails on the code: with max omitted the constructor ends in a `TypeError` (from
`options.max.toString()`), and with min = -10 and a supplied max of 0 the picker's max
is the default 100. -/
theorem C7_construct_defaults_fail :
    construct realMath ⟨⟨400, 400, 400, 400⟩, none, none, none, none, 150⟩
        = .error JsError.typeError
      ∧ ∃ s : Slider ℝ,
          construct realMath ⟨⟨400, 400, 400, 400⟩, none, some (-10), some 0, none, 150⟩ = .ok s
            ∧ s.min = -10 ∧ s.max = 100 ∧ s.max ≠ 0 := by
  refine ⟨rfl, ?_⟩
  obtain ⟨s, hc⟩ : ∃ s : Slider ℝ,
      construct realMath ⟨⟨400, 400, 400, 400⟩, none, some (-10), some 0, none, 150⟩ = .ok s :=
    ⟨_, rfl⟩
  obtain ⟨-, h1, h2, -, -⟩ := construct_ok _ _ _ hc
  have hmin : s.min = -10 := by
    rw [h1]
    norm_num [orDefault]
  have hmax : s.max = 100 := by
    rw [h2]
    norm_num [orDefault]
  refine ⟨s, hc, hmin, hmax, ?_⟩
  rw [hmax]
  norm_num

/-! The arc path (C8, C9) -/

/-- C8: for every configuration with min < max, `updateArc(min)` sets the empty path and
`updateArc(max)` sets the full circle of two 180-degree arcs of radius `r`: move to
`(cx + r, cy)`, arc to `(cx - r, cy)`, arc back to `(cx + r, cy)`; more generally
progress ≤ 0 gives the empty path and progress ≥ 1 the two-arc path. -/
theorem C8_arc_at_bounds (s : Slider ℝ) (hlt : s.min < s.max) :
    (updateArc realMath s s.min).arcD = []
      ∧ (updateArc realMath s s.max).arcD
          = [.cmd "M", .num (s.center.x + s.radius), .num s.center.y,
             .cmd "A", .num s.radius, .num s.radius, .num 0, .num 1, .num 1,
               .num (s.center.x - s.radius), .num s.center.y,
             .cmd "A", .num s.radius, .num s.radius, .num 0, .num 1, .num 1,
               .num (s.center.x + s.radius), .num s.center.y]
      ∧ (∀ v : ℝ, (v - s.min) / (s.max - s.min) ≤ 0 → (updateArc realMath s v).arcD = [])
      ∧ ∀ v : ℝ, 1 ≤ (v - s.min) / (s.max - s.min) →
          (updateArc realMath s v).arcD
            = [.cmd "M", .num (s.center.x + s.radius), .num s.center.y,
               .cmd "A", .num s.radius, .num s.radius, .num 0, .num 1, .num 1,
                 .num (s.center.x - s.radius), .num s.center.y,
               .cmd "A", .num s.radius, .num s.radius, .num 0, .num 1, .num 1,
                 .num (s.center.x + s.radius), .num s.center.y] := by
  have hr : s.max - s.min ≠ 0 := by
    intro h
    linarith
  have hlow : ∀ v : ℝ, (v - s.min) / (s.max - s.min) ≤ 0 → (updateArc realMath s v).arcD = [] := by
    intro v hv
    simp only [updateArc, arcPath]
    rw [if_neg (by linarith), if_pos hv]
  have hhigh : ∀ v : ℝ, 1 ≤ (v - s.min) / (s.max - s.min) →
      (updateArc realMath s v).arcD
        = [.cmd "M", .num (s.center.x + s.radius), .num s.center.y,
           .cmd "A", .num s.radius, .num s.radius, .num 0, .num 1, .num 1,
             .num (s.center.x - s.radius), .num s.center.y,
           .cmd "A", .num s.radius, .num s.radius, .num 0, .num 1, .num 1,
             .num (s.center.x + s.radius), .num s.center.y] := by
    intro v hv
    simp only [updateArc, arcPath]
    rw [if_pos hv]
  refine ⟨hlow _ ?_, hhigh _ ?_, hlow, hhigh⟩
  · rw [sub_self, zero_div]
  · rw [div_self hr]

/-- C8 at min = 0, max = 100, radius 150 and centre (200, 200). -/
theorem C8_arc_at_bounds_witness :
    (updateArc realMath (fixture 0 100 1 150 ⟨200, 200⟩ 0) 0).arcD = []
      ∧ (updateArc realMath (fixture 0 100 1 150 ⟨200, 200⟩ 0) 100).arcD
          = [.cmd "M", .num (200 + 150), .num 200,
             .cmd "A", .num 150, .num 150, .num 0, .num 1, .num 1, .num (200 - 150), .num 200,
             .cmd "A", .num 150, .num 150, .num 0, .num 1, .num 1, .num (200 + 150), .num 200] :=
  have h := C8_arc_at_bounds (fixture 0 100 1 150 ⟨200, 200⟩ 0) (by norm_num [fixture])
  ⟨h.1, h.2.1⟩

/-- With the real cosine and sine, `polarToCartesian` at `d` degrees is the point at
`d` degrees clockwise from 12 o'clock: `(cx + r·sin(dπ/180), cy - r·cos(dπ/180))`. -/
theorem polarToCartesian_closed (cx cy r d : ℝ) :
    polarToCartesian realMath cx cy r d
      = ⟨cx + r * Real.sin (d * Real.pi / 180), cy - r * Real.cos (d * Real.pi / 180)⟩ := by
  have e : (d - 90) * Real.pi / 180 = d * Real.pi / 180 - Real.pi / 2 := by ring
  simp only [polarToCartesian, realMath, e, Real.cos_sub_pi_div_two, Real.sin_sub_pi_div_two]
  congr 1
  ring

/-- At 0 degrees `polarToCartesian` gives the 12 o'clock point. -/
theorem polarToCartesian_zero (cx cy r : ℝ) :
    polarToCartesian realMath cx cy r 0 = ⟨cx, cy - r⟩ := by
  rw [polarToCartesian_closed]
  simp

/-- C9: for every configuration with min < max and every value with 0 < progress < 1,
`updateArc` sets a path with one arc segment of radius `r` that starts at the 12 o'clock
point `(cx, cy - r)` and ends at the point at the value's angle, `progress·360` degrees
clockwise from 12 o'clock, `(cx + r·sin(progress·2π), cy - r·cos(progress·2π))`, which is
`polarToCartesian` of `progress·360` degrees; the large-arc flag is 1 exactly when
progress > 1/2 and 0 otherwise, and the sweep flag is 1. -/
theorem C9_partial_arc (s : Slider ℝ) (v : ℝ) (_ : s.min < s.max)
    (h0 : 0 < (v - s.min) / (s.max - s.min)) (h1 : (v - s.min) / (s.max - s.min) < 1) :
    (updateArc realMath s v).arcD
        = [.cmd "M", .num s.center.x, .num (s.center.y - s.radius),
           .cmd "A", .num s.radius, .num s.radius, .num 0,
             .num (if 1 / 2 < (v - s.min) / (s.max - s.min) then 1 else 0), .num 1,
             .num (s.center.x
               + s.radius * Real.sin ((v - s.min) / (s.max - s.min) * (2 * Real.pi))),
             .num (s.center.y
               - s.radius * Real.cos ((v - s.min) / (s.max - s.min) * (2 * Real.pi)))]
      ∧ polarToCartesian realMath s.center.x s.center.y s.radius
            ((v - s.min) / (s.max - s.min) * 360)
          = ⟨s.center.x + s.radius * Real.sin ((v - s.min) / (s.max - s.min) * (2 * Real.pi)),
             s.center.y - s.radius * Real.cos ((v - s.min) / (s.max - s.min) * (2 * Real.pi))⟩ := by
  have ea : (v - s.min) / (s.max - s.min) * 360 * Real.pi / 180
      = (v - s.min) / (s.max - s.min) * (2 * Real.pi) := by ring
  have hP : polarToCartesian realMath s.center.x s.center.y s.radius
        ((v - s.min) / (s.max - s.min) * 360)
      = ⟨s.center.x + s.radius * Real.sin ((v - s.min) / (s.max - s.min) * (2 * Real.pi)),
         s.center.y - s.radius * Real.cos ((v - s.min) / (s.max - s.min) * (2 * Real.pi))⟩ := by
    rw [polarToCartesian_closed, ea]
  refine ⟨?_, hP⟩
  simp only [updateArc, arcPath]
  rw [if_neg (not_le.2 h1), if_neg (not_le.2 h0), polarToCartesian_zero, hP]
  have hflag : (180 < (v - s.min) / (s.max - s.min) * 360 - 0)
      ↔ (1 / 2 < (v - s.min) / (s.max - s.min)) := by
    constructor <;> intro h <;> linarith
  simp only [hflag]

/-- C9 at min = 0, max = 100, radius 150, centre (200, 200) and the value 75: the arc
starts at (200, 50), ends at 9 o'clock, (50, 200), and is the large arc. -/
theorem C9_partial_arc_witness :
    (updateArc realMath (fixture 0 100 1 150 ⟨200, 200⟩ 0) 75).arcD
      = [.cmd "M", .num 200, .num 50,
         .cmd "A", .num 150, .num 150, .num 0, .num 1, .num 1, .num 50, .num 200] := by
  have h := (C9_partial_arc (fixture 0 100 1 150 ⟨200, 200⟩ 0) 75 (by norm_num [fixture])
    (by norm_num [fixture]) (by norm_num [fixture])).1
  have ea : ((75 : ℝ) - 0) / (100 - 0) * (2 * Real.pi) = Real.pi + Real.pi / 2 := by ring
  have hs : Real.sin (Real.pi + Real.pi / 2) = -1 := by
    rw [Real.sin_add_pi_div_two, Real.cos_pi]
  have hc : Real.cos (Real.pi + Real.pi / 2) = 0 := by
    rw [Real.cos_add_pi_div_two, Real.sin_pi, neg_zero]
  have hf : (1 : ℝ) / 2 < (75 - 0) / (100 - 0) := by norm_num
  rw [h]
  simp only [fixture, ea, hs, hc, if_pos hf]
  norm_num

end CircularSlider
